import Mathlib

/-!
Shallow embedding of the alumina `MulDiv` / `MulDivBack` operators
(`src/alumina_ops/src/math/muldiv.rs`) and the `Min` elementwise operator
(`src/alumina_ops/src/elementwise/min.rs`).

Machine `f32` scalars are modelled as rationals (`ℚ`); buffers are `List ℚ`.
The per-lane loops of `execute` are embedded as structural recursions that
perform the same sequence of indexed reads and accumulating writes as the
Rust source.  The `assert_eq!` shape checks at the top of `execute` are
modelled as returning an `ExecutionError` (the spec classifies a runtime
shape/size assertion failure as an execution-error-class fault).
-/

namespace Alumina

/-- Accumulating remainder loop shared by `MulDivInstance::execute` and
`MulDivBackInstance::execute`: for `i in 0..cnt`,
`dst[base + i] += src[base + i]`. -/
def accumFrom (src : List ℚ) (base : ℕ) : ℕ → List ℚ → List ℚ
  | 0, dst => dst
  | n + 1, dst =>
    let dst := accumFrom src base n dst
    dst.set (base + n) (dst.getD (base + n) 0 + src.getD (base + n) 0)

/-- One iteration of the group loop of `MulDivInstance::execute`
(`muldiv.rs` lines 161-175): read the group `(a,b,c,d)` at `i*4` and
accumulate the complex multiplication and regularized division results
into the four output positions. -/
def muldivLaneGroup (eps : ℚ) (input : List ℚ) (i : ℕ) (output : List ℚ) : List ℚ :=
  let a := input.getD (i * 4) 0
  let b := input.getD (i * 4 + 1) 0
  let c := input.getD (i * 4 + 2) 0
  let d := input.getD (i * 4 + 3) 0
  let output := output.set (i * 4) (output.getD (i * 4) 0 + (a * c - b * d))
  let output := output.set (i * 4 + 1) (output.getD (i * 4 + 1) 0 + (a * d + b * c))
  let denom := eps * eps + c * c + d * d
  let output := output.set (i * 4 + 2) (output.getD (i * 4 + 2) 0 + (a * c + b * d) / denom)
  let output := output.set (i * 4 + 3) (output.getD (i * 4 + 3) 0 + (b * c - a * d) / denom)
  output

/-- The group loop `for i in 0..groups` of `MulDivInstance::execute`. -/
def muldivGroups (eps : ℚ) (input : List ℚ) : ℕ → List ℚ → List ℚ
  | 0, output => output
  | n + 1, output => muldivLaneGroup eps input n (muldivGroups eps input n output)

/-- Per-lane body of `MulDivInstance::execute` (`muldiv.rs` lines 150-181):
process `len / 4` groups of four, then accumulate the
`len - (len / 4) * 4` remainder elements unmodified. -/
def muldivLane (eps : ℚ) (input output : List ℚ) : List ℚ :=
  let len := input.length
  let groups := len / 4
  let remainder := len - groups * 4
  accumFrom input (groups * 4) remainder (muldivGroups eps input groups output)

/-- One iteration of the group loop of `MulDivBackInstance::execute`
(`muldiv.rs` lines 333-379).  Faithfully to the source, the incoming
gradients `wg, xg, yg, zg` are read from the `input_grad` buffer that is
being accumulated into (source lines 339-342 read `input_grad`, not
`output_grad`). -/
def muldivBackLaneGroup (eps : ℚ) (input : List ℚ) (i : ℕ) (inputGrad : List ℚ) : List ℚ :=
  let a := input.getD (i * 4) 0
  let b := input.getD (i * 4 + 1) 0
  let c := input.getD (i * 4 + 2) 0
  let d := input.getD (i * 4 + 3) 0
  let wg := inputGrad.getD (i * 4) 0
  let xg := inputGrad.getD (i * 4 + 1) 0
  let yg := inputGrad.getD (i * 4 + 2) 0
  let zg := inputGrad.getD (i * 4 + 3) 0
  let c2d2e := c * c + d * d + eps * eps
  let c2d2e_2 := c2d2e * c2d2e
  let ag := wg * c + xg * d + yg * (c / c2d2e) + zg * (-(d / c2d2e))
  let bg := wg * (-d) + xg * c + yg * (d / c2d2e) + zg * (c / c2d2e)
  let cg := wg * a + xg * b + yg * (a / c2d2e - (a * c + b * d) * (c * 2 / c2d2e_2))
      + zg * (b / c2d2e - (b * c - a * d) * (c * 2 / c2d2e_2))
  let dg := wg * (-b) + xg * a + yg * (b / c2d2e - (a * c + b * d) * (d * 2 / c2d2e_2))
      + zg * (-a / c2d2e - (b * c - a * d) * (d * 2 / c2d2e_2))
  let inputGrad := inputGrad.set (i * 4) (inputGrad.getD (i * 4) 0 + ag)
  let inputGrad := inputGrad.set (i * 4 + 1) (inputGrad.getD (i * 4 + 1) 0 + bg)
  let inputGrad := inputGrad.set (i * 4 + 2) (inputGrad.getD (i * 4 + 2) 0 + cg)
  let inputGrad := inputGrad.set (i * 4 + 3) (inputGrad.getD (i * 4 + 3) 0 + dg)
  inputGrad

/-- The group loop `for i in 0..groups` of `MulDivBackInstance::execute`. -/
def muldivBackGroups (eps : ℚ) (input : List ℚ) : ℕ → List ℚ → List ℚ
  | 0, inputGrad => inputGrad
  | n + 1, inputGrad => muldivBackLaneGroup eps input n (muldivBackGroups eps input n inputGrad)

/-- Per-lane body of `MulDivBackInstance::execute` (`muldiv.rs` lines
320-386): process `len / 4` groups, then accumulate the remainder of the
output gradient into the input gradient unchanged. -/
def muldivBackLane (eps : ℚ) (input inputGrad outputGrad : List ℚ) : List ℚ :=
  let len := input.length
  let groups := len / 4
  let remainder := len - groups * 4
  accumFrom outputGrad (groups * 4) remainder (muldivBackGroups eps input groups inputGrad)

/-- The per-group adjoint that Claim C2 (and the derivation in the comments
of `muldiv.rs` lines 347-362) prescribes: the same closed-form
transposed-Jacobian contraction, but with the incoming gradients
`wg, xg, yg, zg` read from the output-gradient buffer.  This definition
follows the spec's words and exists to be compared against the embedding
of the source (`muldivBackLaneGroup`). -/
def muldivBackAdjointSpecGroup (eps : ℚ) (input outputGrad : List ℚ) (i : ℕ)
    (inputGrad : List ℚ) : List ℚ :=
  let a := input.getD (i * 4) 0
  let b := input.getD (i * 4 + 1) 0
  let c := input.getD (i * 4 + 2) 0
  let d := input.getD (i * 4 + 3) 0
  let wg := outputGrad.getD (i * 4) 0
  let xg := outputGrad.getD (i * 4 + 1) 0
  let yg := outputGrad.getD (i * 4 + 2) 0
  let zg := outputGrad.getD (i * 4 + 3) 0
  let c2d2e := c * c + d * d + eps * eps
  let c2d2e_2 := c2d2e * c2d2e
  let ag := wg * c + xg * d + yg * (c / c2d2e) + zg * (-(d / c2d2e))
  let bg := wg * (-d) + xg * c + yg * (d / c2d2e) + zg * (c / c2d2e)
  let cg := wg * a + xg * b + yg * (a / c2d2e - (a * c + b * d) * (c * 2 / c2d2e_2))
      + zg * (b / c2d2e - (b * c - a * d) * (c * 2 / c2d2e_2))
  let dg := wg * (-b) + xg * a + yg * (b / c2d2e - (a * c + b * d) * (d * 2 / c2d2e_2))
      + zg * (-a / c2d2e - (b * c - a * d) * (d * 2 / c2d2e_2))
  let inputGrad := inputGrad.set (i * 4) (inputGrad.getD (i * 4) 0 + ag)
  let inputGrad := inputGrad.set (i * 4 + 1) (inputGrad.getD (i * 4 + 1) 0 + bg)
  let inputGrad := inputGrad.set (i * 4 + 2) (inputGrad.getD (i * 4 + 2) 0 + cg)
  let inputGrad := inputGrad.set (i * 4 + 3) (inputGrad.getD (i * 4 + 3) 0 + dg)
  inputGrad

/-- Group loop of the spec-prescribed adjoint. -/
def muldivBackAdjointSpecGroups (eps : ℚ) (input outputGrad : List ℚ) :
    ℕ → List ℚ → List ℚ
  | 0, inputGrad => inputGrad
  | n + 1, inputGrad =>
    muldivBackAdjointSpecGroup eps input outputGrad n
      (muldivBackAdjointSpecGroups eps input outputGrad n inputGrad)

/-- Per-lane spec-prescribed adjoint (Claim C2's words): transposed-Jacobian
contraction per full group, remainder gradients passed through unchanged. -/
def muldivBackAdjointSpecLane (eps : ℚ) (input inputGrad outputGrad : List ℚ) : List ℚ :=
  let len := input.length
  let groups := len / 4
  let remainder := len - groups * 4
  accumFrom outputGrad (groups * 4) remainder
    (muldivBackAdjointSpecGroups eps input outputGrad groups inputGrad)

/-- Runtime tensor: a dense buffer of scalars together with its shape. -/
structure Tensor where
  shape : List ℕ
  data : List ℚ
deriving DecidableEq

/-- Length of the innermost axis: the lane length used by
`lanes(Axis(ndim - 1))`. -/
def innerLen (shape : List ℕ) : ℕ := shape.getLastD 1

/-- Fuel-driven helper: `chunksGo` splits a flat buffer into lanes of length `k` (fuel-driven). -/
def chunksGo (k : ℕ) : ℕ → List ℚ → List (List ℚ)
  | 0, _ => []
  | _ + 1, [] => []
  | fuel + 1, x :: xs => (x :: xs).take k :: chunksGo k fuel ((x :: xs).drop k)

/-- Split a flat dense buffer into its innermost-axis lanes. -/
def chunks (k : ℕ) (l : List ℚ) : List (List ℚ) := chunksGo k l.length l

/-- Three-way lane zip used by the backward execution. -/
def zipWith3 (f : List ℚ → List ℚ → List ℚ → List ℚ) :
    List (List ℚ) → List (List ℚ) → List (List ℚ) → List (List ℚ)
  | a :: as, b :: bs, c :: cs => f a b c :: zipWith3 f as bs cs
  | _, _, _ => []

/-- Runtime error of `execute`; the `assert_eq!` shape checks of the source
are modelled as returning this execution-error value. -/
inductive ExecutionError
  | shapeMismatch
deriving DecidableEq

/-- Build error (the embedded `build_instance` functions never fail). -/
inductive OpBuildError
  | buildFailure
deriving DecidableEq

/-- Gradient error; `Unimplemented` mirrors `GradientError::Unimplemented`. -/
inductive GradientError
  | unimplemented
  | buildFailure
deriving DecidableEq

/-- Shape-propagation error. -/
inductive ShapePropError
  | mergeIncompatible
  | outputGradShapeMismatch
deriving DecidableEq

/-- Embeds `MulDivInstance` (`muldiv.rs` lines 97-102): node ids plus epsilon. -/
structure MulDivInstance where
  input : ℕ
  output : ℕ
  epsilon : ℚ
deriving DecidableEq

/-- Embeds `MulDivInstance::execute` (`muldiv.rs` lines 140-184): check the shapes,
then apply the per-lane loop to every innermost-axis lane.  The source's
`assert_eq!(input.shape(), output.shape())` is modelled as an
`ExecutionError` (the spec classifies runtime shape assertion failures as
execution errors). -/
def MulDivInstance.execute (inst : MulDivInstance) (input output : Tensor) :
    Except ExecutionError Tensor :=
  if input.shape ≠ output.shape then .error .shapeMismatch
  else
    let k := innerLen input.shape
    .ok ⟨output.shape,
      (List.zipWith (muldivLane inst.epsilon) (chunks k input.data)
        (chunks k output.data)).flatten⟩

/-- Embeds `MulDivBackInstance` (`muldiv.rs` lines 257-263). -/
structure MulDivBackInstance where
  input : ℕ
  input_grad : ℕ
  output_grad : ℕ
  epsilon : ℚ
deriving DecidableEq

/-- Embeds `MulDivBackInstance::execute` (`muldiv.rs` lines 307-389): check the two
shape assertions, then run the backward per-lane loop on every lane. -/
def MulDivBackInstance.execute (inst : MulDivBackInstance)
    (input inputGrad outputGrad : Tensor) : Except ExecutionError Tensor :=
  if input.shape ≠ outputGrad.shape then .error .shapeMismatch
  else if input.shape ≠ inputGrad.shape then .error .shapeMismatch
  else
    let k := innerLen input.shape
    .ok ⟨inputGrad.shape,
      (zipWith3 (muldivBackLane inst.epsilon) (chunks k input.data)
        (chunks k inputGrad.data) (chunks k outputGrad.data)).flatten⟩

/-- A zeroed output buffer of the same size and shape as the given tensor
(the engine zero-initializes accumulator storage before producers run). -/
def zeroTensor (t : Tensor) : Tensor := ⟨t.shape, List.replicate t.data.length 0⟩

/-- Repeated execution: `n + 1` executions of the same instance, each into a freshly zeroed
output buffer, keeping the last result (Claim C9's repeated execution). -/
def MulDivInstance.executeRepeated (inst : MulDivInstance) (input : Tensor) :
    ℕ → Except ExecutionError Tensor
  | 0 => inst.execute input (zeroTensor input)
  | n + 1 => (inst.executeRepeated input n).bind fun _ => inst.execute input (zeroTensor input)

/-- Shape-propagation context.  Modelled from the spec: `ShapePropContext`
of `alumina_core` is not under `src/`; per the spec it exposes
`input_shape(NodeID)` (the current, here fully resolved, shape of an
input) and `merge_output_shape(NodeID, Shape)` over per-node shape
constraints in which unknown dimensions unify permissively. -/
structure ShapePropCtx where
  inputShape : ℕ → List ℕ
  constraint : ℕ → Option (List (Option ℕ))

/-- A proposed concrete shape is compatible with an existing constraint iff
the ranks agree and every known dimension agrees. -/
def shapeCompat (prop : List ℕ) (c : List (Option ℕ)) : Bool :=
  prop.length == c.length &&
    (List.zip prop c).all fun pd =>
      match pd.2 with
      | none => true
      | some k => k == pd.1

/-- Modelled from the spec: `merge_output_shape` merges a proposed shape
into a node's current constraint; it fails with a shape-propagation error
if the proposed shape is rank- or size-incompatible with the existing
constraint, and unknown dimensions unify permissively. -/
def ShapePropCtx.mergeOutputShape (ctx : ShapePropCtx) (nid : ℕ) (s : List ℕ) :
    Except ShapePropError ShapePropCtx :=
  match ctx.constraint nid with
  | none =>
    .ok { ctx with constraint := fun n => if n = nid then some (s.map some) else ctx.constraint n }
  | some c =>
    if shapeCompat s c then
      .ok { ctx with constraint := fun n => if n = nid then some (s.map some) else ctx.constraint n }
    else .error .mergeIncompatible

/-- Embeds `MulDivInstance::propagate_shapes` (`muldiv.rs` lines 136-138): merge
the input's shape into the output node. -/
def MulDivInstance.propagateShapes (inst : MulDivInstance) (ctx : ShapePropCtx) :
    Except ShapePropError ShapePropCtx :=
  ctx.mergeOutputShape inst.output (ctx.inputShape inst.input)

/-- Embeds `MulDivBackInstance::propagate_shapes` (`muldiv.rs` lines 291-305):
error if the output-gradient shape differs from the input shape, else
merge the input shape into the input-gradient node. -/
def MulDivBackInstance.propagateShapes (inst : MulDivBackInstance) (ctx : ShapePropCtx) :
    Except ShapePropError ShapePropCtx :=
  let input_shape := ctx.inputShape inst.input
  let output_grad_shape := ctx.inputShape inst.output_grad
  if output_grad_shape ≠ input_shape then .error .outputGradShapeMismatch
  else ctx.mergeOutputShape inst.input_grad input_shape

/-- Gradient context: per the spec it exposes `node(NodeID)` and
`grad_of(NodeID)`, both returning nodes; here both are node-id maps. -/
structure GradientContext where
  node : ℕ → ℕ
  gradOf : ℕ → ℕ

/-- Embeds the `MulDiv` specification (`muldiv.rs` lines 33-38); nodes are ids. -/
structure MulDiv where
  input : ℕ
  output : ℕ
  epsilon : ℚ
deriving DecidableEq

/-- Embeds `MulDiv::new` (`muldiv.rs` lines 41-54): default epsilon `0.1`. -/
def MulDiv.new (input output : ℕ) : MulDiv :=
  { input := input, output := output, epsilon := 1 / 10 }

/-- The fluent `MulDiv::epsilon` setter (`muldiv.rs` lines 59-62). -/
def MulDiv.withEpsilon (m : MulDiv) (epsilon : ℚ) : MulDiv :=
  { m with epsilon := epsilon }

/-- Embeds `MulDiv::build_instance` (`muldiv.rs` lines 88-94). -/
def MulDiv.build_instance (m : MulDiv) : Except OpBuildError MulDivInstance :=
  .ok { input := m.input, output := m.output, epsilon := m.epsilon }

/-- The `muldiv` convenience function (`muldiv.rs` lines 21-31): builds
`MulDiv::new(input, output)` with no epsilon override.  The graph node
creation is out of scope; the built instance is returned. -/
def muldiv (input output : ℕ) : Except OpBuildError MulDivInstance :=
  (MulDiv.new input output).build_instance

/-- Embeds the `MulDivBack` specification (`muldiv.rs` lines 187-193). -/
structure MulDivBack where
  input : ℕ
  input_grad : ℕ
  output_grad : ℕ
  epsilon : ℚ
deriving DecidableEq

/-- Embeds `MulDivBack::new` (`muldiv.rs` lines 195-212): default epsilon `0.1`. -/
def MulDivBack.new (input input_grad output_grad : ℕ) : MulDivBack :=
  { input := input, input_grad := input_grad, output_grad := output_grad, epsilon := 1 / 10 }

/-- The fluent `MulDivBack::epsilon` setter (`muldiv.rs` lines 217-220). -/
def MulDivBack.withEpsilon (m : MulDivBack) (epsilon : ℚ) : MulDivBack :=
  { m with epsilon := epsilon }

/-- Embeds `MulDivBack::build_instance` (`muldiv.rs` lines 247-254). -/
def MulDivBack.build_instance (m : MulDivBack) : Except OpBuildError MulDivBackInstance :=
  .ok { input := m.input, input_grad := m.input_grad, output_grad := m.output_grad,
        epsilon := m.epsilon }

/-- Embeds `MulDivInstance::gradient` (`muldiv.rs` lines 125-134): build a
`MulDivBack` over `ctx.node(input)`, `ctx.grad_of(input)`,
`ctx.grad_of(output)` with `.epsilon(self.epsilon)`.  The registered
backward instance is returned for inspection. -/
def MulDivInstance.gradient (inst : MulDivInstance) (ctx : GradientContext) :
    Except GradientError MulDivBackInstance :=
  match ((MulDivBack.new (ctx.node inst.input) (ctx.gradOf inst.input)
      (ctx.gradOf inst.output)).withEpsilon inst.epsilon).build_instance with
  | .ok b => .ok b
  | .error _ => .error .buildFailure

/-- Embeds `MulDivBackInstance::gradient` (`muldiv.rs` lines 287-289): always
`Err(GradientError::Unimplemented)`. -/
def MulDivBackInstance.gradient (_inst : MulDivBackInstance) (_ctx : GradientContext) :
    Except GradientError Unit :=
  .error .unimplemented

/-- Embeds `MinFunc::calc` (`min.rs` lines 36-39): `input1.min(input2)`; for
(non-NaN) `f32` values `min` returns `input1` when `input1 < input2` and
`input2` otherwise. -/
def MinFunc.calc (input1 input2 : ℚ) : ℚ :=
  if input1 < input2 then input1 else input2

/-- Embeds `MinBackFunc::calc` (`min.rs` lines 80-87): `input1`, `input2` are the
forward inputs, `input3` is the output gradient; returns the gradient for
`input1`. -/
def MinBackFunc.calc (input1 input2 input3 : ℚ) : ℚ :=
  if input1 < input2 then input3 else 0

/-- Per-element semantics of the two `MinBack` instances that
`MinFunc::grad` (`min.rs` lines 45-68) builds: the first contributes
`MinBackFunc::calc(x1, x2, g)` to input1's gradient accumulator, the
second (with the inputs swapped) contributes `MinBackFunc::calc(x2, x1, g)`
to input2's. -/
def minGradContribs (x1 x2 g : ℚ) : ℚ × ℚ :=
  (MinBackFunc.calc x1 x2 g, MinBackFunc.calc x2 x1 g)

/-- Embeds `MinBackFunc::grad` (`min.rs` lines 93-102): always
`Err(GradientError::Unimplemented)`. -/
def MinBackFunc.grad (_ctx : GradientContext) (_input1 _input2 _input3 _output : ℕ) :
    Except GradientError Unit :=
  .error .unimplemented

/-- The input row of the forward literal test (`muldiv.rs` lines 404-405,
first row): `[0.2, 0.4, 0.6, 0.8, 2.2, 2.4, 2.6, 2.8, 4.7]`. -/
def muldivTestRow : List ℚ := [1/5, 2/5, 3/5, 4/5, 11/5, 12/5, 13/5, 14/5, 47/10]

/-- Modelled from the spec: `all_relatively_close` of `alumina_test` is not
under `src/`; per the spec's words it checks elementwise closeness "within
a relative tolerance". -/
def relClose (tol a b : ℚ) : Prop := |a - b| ≤ tol * |b|

/-- Shape-propagation context in which every node's resolved input shape is
`[2]` except node 2 (shape `[3]`), with no pre-existing constraints. -/
def shapePropCtxW : ShapePropCtx :=
  { inputShape := fun n => if n = 2 then [3] else [2]
    constraint := fun _ => none }

/-- Shape-propagation context in which every input shape is `[2]` but node 1
carries a pre-existing incompatible constraint `[3]`. -/
def shapePropCtxC6 : ShapePropCtx :=
  { inputShape := fun _ => [2]
    constraint := fun n => if n = 1 then some [some 3] else none }

end Alumina

namespace Alumina

/-! Helper lemmas about `List.set` / `List.getD` used to reason about the
accumulating loops. -/

theorem getD_set_ne (l : List ℚ) (i j : ℕ) (a : ℚ) (h : i ≠ j) :
    (l.set i a).getD j 0 = l.getD j 0 := by
  simp [List.getD_eq_getElem?_getD, List.getElem?_set_ne h]

theorem getD_set_eq (l : List ℚ) (i : ℕ) (a : ℚ) (h : i < l.length) :
    (l.set i a).getD i 0 = a := by
  simp [List.getD_eq_getElem?_getD, List.getElem?_set_eq_of_lt a h]

theorem length_muldivLaneGroup (eps : ℚ) (input : List ℚ) (i : ℕ) (output : List ℚ) :
    (muldivLaneGroup eps input i output).length = output.length := by
  simp [muldivLaneGroup]

theorem length_muldivGroups (eps : ℚ) (input : List ℚ) (n : ℕ) (output : List ℚ) :
    (muldivGroups eps input n output).length = output.length := by
  induction n with
  | zero => rfl
  | succ n ih => simp [muldivGroups, length_muldivLaneGroup, ih]

theorem length_accumFrom (src : List ℚ) (base n : ℕ) (dst : List ℚ) :
    (accumFrom src base n dst).length = dst.length := by
  induction n with
  | zero => rfl
  | succ n ih => simp [accumFrom, ih]

/-- The loop `accumFrom src base cnt` leaves every index outside `[base, base + cnt)`
unchanged. -/
theorem accumFrom_getD_outside (src : List ℚ) (base n : ℕ) (dst : List ℚ) (j : ℕ)
    (h : j < base ∨ base + n ≤ j) :
    (accumFrom src base n dst).getD j 0 = dst.getD j 0 := by
  induction n with
  | zero => rfl
  | succ n ih =>
    have hne : base + n ≠ j := by omega
    have h' : j < base ∨ base + n ≤ j := by omega
    simp only [accumFrom]
    rw [getD_set_ne _ _ _ _ hne, ih h']

/-- The loop `accumFrom src base cnt` adds `src[j]` onto `dst[j]` at every in-range,
in-bounds index `j` of `[base, base + cnt)`. -/
theorem accumFrom_getD_inside (src : List ℚ) (base n : ℕ) (dst : List ℚ) (j : ℕ)
    (hlo : base ≤ j) (hhi : j < base + n) (hb : j < dst.length) :
    (accumFrom src base n dst).getD j 0 = dst.getD j 0 + src.getD j 0 := by
  induction n with
  | zero => omega
  | succ n ih =>
    simp only [accumFrom]
    by_cases hj : j = base + n
    · subst hj
      have hblen : base + n < (accumFrom src base n dst).length := by
        rw [length_accumFrom]; exact hb
      rw [getD_set_eq _ _ _ hblen,
        accumFrom_getD_outside src base n dst _ (Or.inr le_rfl)]
    · have hne : base + n ≠ j := fun h => hj h.symm
      have hhi' : j < base + n := by omega
      rw [getD_set_ne _ _ _ _ hne, ih hhi']

/-- The step `muldivLaneGroup` at group `i` touches only indices `i*4 .. i*4+3`. -/
theorem muldivLaneGroup_getD_ne (eps : ℚ) (input : List ℚ) (i : ℕ) (output : List ℚ) (j : ℕ)
    (h : j < i * 4 ∨ i * 4 + 3 < j) :
    (muldivLaneGroup eps input i output).getD j 0 = output.getD j 0 := by
  have h0 : i * 4 ≠ j := by omega
  have h1 : i * 4 + 1 ≠ j := by omega
  have h2 : i * 4 + 2 ≠ j := by omega
  have h3 : i * 4 + 3 ≠ j := by omega
  simp only [muldivLaneGroup]
  rw [getD_set_ne _ _ _ _ h3, getD_set_ne _ _ _ _ h2, getD_set_ne _ _ _ _ h1,
    getD_set_ne _ _ _ _ h0]

/-- The four values written by `muldivLaneGroup` at group `i`. -/
theorem muldivLaneGroup_getD (eps : ℚ) (input : List ℚ) (i : ℕ) (output : List ℚ)
    (hb : i * 4 + 3 < output.length) :
    ((muldivLaneGroup eps input i output).getD (i * 4) 0
        = output.getD (i * 4) 0
          + (input.getD (i * 4) 0 * input.getD (i * 4 + 2) 0
             - input.getD (i * 4 + 1) 0 * input.getD (i * 4 + 3) 0)) ∧
    ((muldivLaneGroup eps input i output).getD (i * 4 + 1) 0
        = output.getD (i * 4 + 1) 0
          + (input.getD (i * 4) 0 * input.getD (i * 4 + 3) 0
             + input.getD (i * 4 + 1) 0 * input.getD (i * 4 + 2) 0)) ∧
    ((muldivLaneGroup eps input i output).getD (i * 4 + 2) 0
        = output.getD (i * 4 + 2) 0
          + (input.getD (i * 4) 0 * input.getD (i * 4 + 2) 0
             + input.getD (i * 4 + 1) 0 * input.getD (i * 4 + 3) 0)
            / (eps * eps + input.getD (i * 4 + 2) 0 * input.getD (i * 4 + 2) 0
               + input.getD (i * 4 + 3) 0 * input.getD (i * 4 + 3) 0)) ∧
    ((muldivLaneGroup eps input i output).getD (i * 4 + 3) 0
        = output.getD (i * 4 + 3) 0
          + (input.getD (i * 4 + 1) 0 * input.getD (i * 4 + 2) 0
             - input.getD (i * 4) 0 * input.getD (i * 4 + 3) 0)
            / (eps * eps + input.getD (i * 4 + 2) 0 * input.getD (i * 4 + 2) 0
               + input.getD (i * 4 + 3) 0 * input.getD (i * 4 + 3) 0)) := by
  have hb0 : i * 4 < output.length := by omega
  have hb1 : i * 4 + 1 < output.length := by omega
  have hb2 : i * 4 + 2 < output.length := by omega
  simp only [muldivLaneGroup]
  refine ⟨?_, ?_, ?_, ?_⟩
  · rw [getD_set_ne _ _ _ _ (by omega), getD_set_ne _ _ _ _ (by omega),
      getD_set_ne _ _ _ _ (by omega), getD_set_eq _ _ _ hb0]
  · rw [getD_set_ne _ _ _ _ (by omega), getD_set_ne _ _ _ _ (by omega),
      getD_set_eq _ _ _ (by simpa using hb1), getD_set_ne _ _ _ _ (by omega)]
  · rw [getD_set_ne _ _ _ _ (by omega),
      getD_set_eq _ _ _ (by simpa using hb2),
      getD_set_ne _ _ _ _ (by omega), getD_set_ne _ _ _ _ (by omega)]
  · rw [getD_set_eq _ _ _ (by simpa using hb),
      getD_set_ne _ _ _ _ (by omega), getD_set_ne _ _ _ _ (by omega),
      getD_set_ne _ _ _ _ (by omega)]

/-- The group loop leaves every index at or past `n*4` unchanged. -/
theorem muldivGroups_getD_ge (eps : ℚ) (input : List ℚ) (n : ℕ) (output : List ℚ) (j : ℕ)
    (h : n * 4 ≤ j) :
    (muldivGroups eps input n output).getD j 0 = output.getD j 0 := by
  induction n with
  | zero => rfl
  | succ n ih =>
    simp only [muldivGroups]
    rw [muldivLaneGroup_getD_ne _ _ _ _ _ (Or.inr (by omega)), ih (by omega)]

/-- After the group loop has processed `n` groups, every group `g < n` holds
the accumulated complex multiplication / regularized division results. -/
theorem muldivGroups_getD_lt (eps : ℚ) (input : List ℚ) (n : ℕ) (output : List ℚ) (g : ℕ)
    (hg : g < n) (hb : n * 4 ≤ output.length) :
    ((muldivGroups eps input n output).getD (g * 4) 0
        = output.getD (g * 4) 0
          + (input.getD (g * 4) 0 * input.getD (g * 4 + 2) 0
             - input.getD (g * 4 + 1) 0 * input.getD (g * 4 + 3) 0)) ∧
    ((muldivGroups eps input n output).getD (g * 4 + 1) 0
        = output.getD (g * 4 + 1) 0
          + (input.getD (g * 4) 0 * input.getD (g * 4 + 3) 0
             + input.getD (g * 4 + 1) 0 * input.getD (g * 4 + 2) 0)) ∧
    ((muldivGroups eps input n output).getD (g * 4 + 2) 0
        = output.getD (g * 4 + 2) 0
          + (input.getD (g * 4) 0 * input.getD (g * 4 + 2) 0
             + input.getD (g * 4 + 1) 0 * input.getD (g * 4 + 3) 0)
            / (eps * eps + input.getD (g * 4 + 2) 0 * input.getD (g * 4 + 2) 0
               + input.getD (g * 4 + 3) 0 * input.getD (g * 4 + 3) 0)) ∧
    ((muldivGroups eps input n output).getD (g * 4 + 3) 0
        = output.getD (g * 4 + 3) 0
          + (input.getD (g * 4 + 1) 0 * input.getD (g * 4 + 2) 0
             - input.getD (g * 4) 0 * input.getD (g * 4 + 3) 0)
            / (eps * eps + input.getD (g * 4 + 2) 0 * input.getD (g * 4 + 2) 0
               + input.getD (g * 4 + 3) 0 * input.getD (g * 4 + 3) 0)) := by
  induction n with
  | zero => omega
  | succ n ih =>
    simp only [muldivGroups]
    by_cases hgn : g = n
    · subst hgn
      have hblen : g * 4 + 3 < (muldivGroups eps input g output).length := by
        rw [length_muldivGroups]; omega
      have h4 := muldivLaneGroup_getD eps input g (muldivGroups eps input g output) hblen
      rw [h4.1, h4.2.1, h4.2.2.1, h4.2.2.2,
        muldivGroups_getD_ge eps input g output (g * 4) (by omega),
        muldivGroups_getD_ge eps input g output (g * 4 + 1) (by omega),
        muldivGroups_getD_ge eps input g output (g * 4 + 2) (by omega),
        muldivGroups_getD_ge eps input g output (g * 4 + 3) (by omega)]
      exact ⟨rfl, rfl, rfl, rfl⟩
    · have hg' : g < n := by omega
      have ih' := ih hg' (by omega)
      rw [muldivLaneGroup_getD_ne _ _ _ _ _ (Or.inl (by omega)),
        muldivLaneGroup_getD_ne _ _ _ _ _ (Or.inl (by omega)),
        muldivLaneGroup_getD_ne _ _ _ _ _ (Or.inl (by omega)),
        muldivLaneGroup_getD_ne _ _ _ _ _ (Or.inl (by omega))]
      exact ih'

/-- Claim C1: for every lane of length `len`, `MulDivInstance::execute`
partitions the first `4*(len/4)` elements into consecutive groups
`(a,b,c,d)` and accumulates into the corresponding four output positions
`a*c - b*d`, `a*d + b*c`, `(a*c + b*d)/(eps^2 + c^2 + d^2)` and
`(b*c - a*d)/(eps^2 + c^2 + d^2)`; every remaining element (index at or
past `4*(len/4)`) is accumulated into the output unmodified. -/
theorem muldiv_execute_lane_spec (eps : ℚ) (input output : List ℚ)
    (hlen : output.length = input.length) :
    (∀ g, g < input.length / 4 →
      ((muldivLane eps input output).getD (g * 4) 0
          = output.getD (g * 4) 0
            + (input.getD (g * 4) 0 * input.getD (g * 4 + 2) 0
               - input.getD (g * 4 + 1) 0 * input.getD (g * 4 + 3) 0)) ∧
      ((muldivLane eps input output).getD (g * 4 + 1) 0
          = output.getD (g * 4 + 1) 0
            + (input.getD (g * 4) 0 * input.getD (g * 4 + 3) 0
               + input.getD (g * 4 + 1) 0 * input.getD (g * 4 + 2) 0)) ∧
      ((muldivLane eps input output).getD (g * 4 + 2) 0
          = output.getD (g * 4 + 2) 0
            + (input.getD (g * 4) 0 * input.getD (g * 4 + 2) 0
               + input.getD (g * 4 + 1) 0 * input.getD (g * 4 + 3) 0)
              / (eps * eps + input.getD (g * 4 + 2) 0 * input.getD (g * 4 + 2) 0
                 + input.getD (g * 4 + 3) 0 * input.getD (g * 4 + 3) 0)) ∧
      ((muldivLane eps input output).getD (g * 4 + 3) 0
          = output.getD (g * 4 + 3) 0
            + (input.getD (g * 4 + 1) 0 * input.getD (g * 4 + 2) 0
               - input.getD (g * 4) 0 * input.getD (g * 4 + 3) 0)
              / (eps * eps + input.getD (g * 4 + 2) 0 * input.getD (g * 4 + 2) 0
                 + input.getD (g * 4 + 3) 0 * input.getD (g * 4 + 3) 0))) ∧
    (∀ j, input.length / 4 * 4 ≤ j → j < input.length →
      (muldivLane eps input output).getD j 0 = output.getD j 0 + input.getD j 0) := by
  constructor
  · intro g hg
    have h4 := muldivGroups_getD_lt eps input (input.length / 4) output g hg (by omega)
    simp only [muldivLane]
    refine ⟨?_, ?_, ?_, ?_⟩
    · rw [accumFrom_getD_outside _ _ _ _ _ (Or.inl (by omega))]
      exact h4.1
    · rw [accumFrom_getD_outside _ _ _ _ _ (Or.inl (by omega))]
      exact h4.2.1
    · rw [accumFrom_getD_outside _ _ _ _ _ (Or.inl (by omega))]
      exact h4.2.2.1
    · rw [accumFrom_getD_outside _ _ _ _ _ (Or.inl (by omega))]
      exact h4.2.2.2
  · intro j hj hjlen
    simp only [muldivLane]
    rw [accumFrom_getD_inside _ _ _ _ _ hj (by omega)
        (by rw [length_muldivGroups]; omega),
      muldivGroups_getD_ge eps input _ output j hj]

/-- Witness for Claim C1 at the concrete lane `[1,2,3,4,5]` with `eps = 1`:
the trailing remainder element is accumulated unmodified. -/
theorem muldiv_execute_lane_spec_witness :
    (([(0 : ℚ), 0, 0, 0, 0] : List ℚ).length = ([(1 : ℚ), 2, 3, 4, 5] : List ℚ).length) ∧
    (muldivLane 1 [1, 2, 3, 4, 5] [0, 0, 0, 0, 0]).getD 4 0
      = ([(0 : ℚ), 0, 0, 0, 0] : List ℚ).getD 4 0 + ([(1 : ℚ), 2, 3, 4, 5] : List ℚ).getD 4 0 :=
  ⟨by decide,
    (muldiv_execute_lane_spec 1 [1, 2, 3, 4, 5] [0, 0, 0, 0, 0] (by decide)).2 4
      (by decide) (by decide)⟩

/-- Claim C2 (evaluation at the failing input): on the single-group lane
`[1, 0, 1, 0]` with incoming output gradient `[1, 0, 0, 0]`, a zeroed
input-gradient accumulator and `eps = 1/10`, the source's backward loop
leaves the input gradient all-zero — it reads the incoming gradients
`wg, xg, yg, zg` from the (zeroed) `input_grad` buffer — while the
transposed-Jacobian contraction the claim prescribes yields `[1, 0, 1, 0]`. -/
theorem muldivBack_reads_wrong_buffer :
    muldivBackLane (1 / 10) [1, 0, 1, 0] [0, 0, 0, 0] [1, 0, 0, 0] = [0, 0, 0, 0] ∧
    muldivBackAdjointSpecLane (1 / 10) [1, 0, 1, 0] [0, 0, 0, 0] [1, 0, 0, 0] = [1, 0, 1, 0] ∧
    muldivBackLane (1 / 10) [1, 0, 1, 0] [0, 0, 0, 0] [1, 0, 0, 0]
      ≠ muldivBackAdjointSpecLane (1 / 10) [1, 0, 1, 0] [0, 0, 0, 0] [1, 0, 0, 0] := by
  refine ⟨?_, ?_, ?_⟩ <;>
    norm_num [muldivBackLane, muldivBackGroups, muldivBackLaneGroup,
      muldivBackAdjointSpecLane, muldivBackAdjointSpecGroups, muldivBackAdjointSpecGroup,
      accumFrom]

/-- Claim C3: the per-element backward function of `Min` routes the output
gradient to an input iff that input is strictly less than the other, and
contributes exactly 0 otherwise; ties route zero gradient to both inputs,
and when `x1 > x2` strictly the gradient contributed to `x1` is zero. -/
theorem min_gradient_tie_break :
    (∀ x1 x2 g : ℚ,
      (minGradContribs x1 x2 g).1 = (if x1 < x2 then g else 0) ∧
      (minGradContribs x1 x2 g).2 = (if x2 < x1 then g else 0)) ∧
    (∀ x g : ℚ, (minGradContribs x x g).1 = 0 ∧ (minGradContribs x x g).2 = 0) ∧
    (∀ x1 x2 g : ℚ, x2 < x1 → (minGradContribs x1 x2 g).1 = 0) := by
  refine ⟨fun x1 x2 g => ⟨rfl, rfl⟩, fun x g => ?_, fun x1 x2 g h => ?_⟩
  · simp [minGradContribs, MinBackFunc.calc]
  · simp [minGradContribs, MinBackFunc.calc, not_lt.mpr (le_of_lt h)]

/-- Witness for Claim C3: at `x1 = 1 > x2 = 0` with output gradient `5`,
the gradient routed to the larger-valued input is exactly zero. -/
theorem min_gradient_tie_break_witness :
    ((0 : ℚ) < 1) ∧ (minGradContribs (1 : ℚ) 0 5).1 = 0 :=
  ⟨by norm_num, min_gradient_tie_break.2.2 1 0 5 (by norm_num)⟩

/-- Claim C4: the `Min` operator's per-element forward function returns the
mathematical minimum; in particular `(1.25, 1.25) ↦ 1.25`,
`(1.25, -0.8) ↦ -0.8`, `(-0.8, 1.25) ↦ -0.8` and `(-0.8, -0.8) ↦ -0.8`. -/
theorem min_forward_correct :
    (∀ x1 x2 : ℚ, MinFunc.calc x1 x2 = min x1 x2) ∧
    MinFunc.calc (5 / 4) (5 / 4) = 5 / 4 ∧
    MinFunc.calc (5 / 4) (-(4 / 5)) = -(4 / 5) ∧
    MinFunc.calc (-(4 / 5)) (5 / 4) = -(4 / 5) ∧
    MinFunc.calc (-(4 / 5)) (-(4 / 5)) = -(4 / 5) := by
  have h : ∀ x1 x2 : ℚ, MinFunc.calc x1 x2 = min x1 x2 := by
    intro x1 x2
    unfold MinFunc.calc
    split
    · exact (min_eq_left (le_of_lt (by assumption))).symm
    · exact (min_eq_right (le_of_not_lt (by assumption))).symm
  refine ⟨h, ?_, ?_, ?_, ?_⟩ <;> rw [h] <;> norm_num

/-- Claim C5: invoking `gradient()` on a backward instance —
`MulDivBackInstance::gradient` or `MinBackFunc::grad` — always returns the
explicit `GradientError::Unimplemented` error. -/
theorem backward_gradient_unimplemented :
    (∀ (inst : MulDivBackInstance) (ctx : GradientContext),
      inst.gradient ctx = .error .unimplemented) ∧
    (∀ (ctx : GradientContext) (i1 i2 i3 out : ℕ),
      MinBackFunc.grad ctx i1 i2 i3 out = .error .unimplemented) :=
  ⟨fun _ _ => rfl, fun _ _ _ _ _ => rfl⟩

/-- Claim C8: `execute` surfaces a shape mismatch between the presented
storage buffers as an execution error, and succeeds exactly when the
declared input/output shape relationship holds. -/
theorem execute_shape_mismatch_error :
    (∀ (inst : MulDivInstance) (input output : Tensor),
      (∃ e, inst.execute input output = .error e) ↔ input.shape ≠ output.shape) ∧
    (∀ (binst : MulDivBackInstance) (input inputGrad outputGrad : Tensor),
      (∃ e, binst.execute input inputGrad outputGrad = .error e) ↔
        (input.shape ≠ outputGrad.shape ∨ input.shape ≠ inputGrad.shape)) := by
  constructor
  · intro inst input output
    unfold MulDivInstance.execute
    by_cases h : input.shape = output.shape
    · rw [if_neg (not_not_intro h)]
      constructor
      · rintro ⟨e, he⟩
        exact absurd he (by simp)
      · intro hne
        exact absurd h hne
    · rw [if_pos h]
      exact ⟨fun _ => h, fun _ => ⟨.shapeMismatch, rfl⟩⟩
  · intro binst input inputGrad outputGrad
    unfold MulDivBackInstance.execute
    by_cases h1 : input.shape = outputGrad.shape
    · rw [if_neg (not_not_intro h1)]
      by_cases h2 : input.shape = inputGrad.shape
      · rw [if_neg (not_not_intro h2)]
        constructor
        · rintro ⟨e, he⟩
          exact absurd he (by simp)
        · rintro (h | h)
          · exact absurd h1 h
          · exact absurd h2 h
      · rw [if_pos h2]
        exact ⟨fun _ => Or.inr h2, fun _ => ⟨.shapeMismatch, rfl⟩⟩
    · rw [if_pos h1]
      exact ⟨fun _ => Or.inl h1, fun _ => ⟨.shapeMismatch, rfl⟩⟩

/-- Claim C9: executing the same instance repeatedly, each time into a
freshly zeroed output buffer, is equivalent to executing it once — the
instance carries no hidden internal state between calls. -/
theorem executeRepeated_eq_once (inst : MulDivInstance) (input : Tensor) (n : ℕ) :
    inst.executeRepeated input n = inst.execute input (zeroTensor input) := by
  induction n with
  | zero => rfl
  | succ n ih =>
    simp only [MulDivInstance.executeRepeated, ih]
    cases hE : inst.execute input (zeroTensor input) with
    | error e => simp [Except.bind]
    | ok t => simp [Except.bind, hE]

/-- Claim C10: the default epsilon of `MulDiv` and `MulDivBack` as
constructed by `new()` is `0.1` (not the `1e-4` of the adjacent doc
comments); every instance built through `muldiv` and every backward
instance `MulDivInstance::gradient` builds from a default-epsilon forward
instance uses `0.1`. -/
theorem muldiv_default_epsilon (i o a b c : ℕ) (ctx : GradientContext) :
    (MulDiv.new i o).epsilon = 1 / 10 ∧
    (MulDivBack.new a b c).epsilon = 1 / 10 ∧
    (MulDiv.new i o).epsilon ≠ 1 / 10000 ∧
    muldiv i o = .ok ⟨i, o, 1 / 10⟩ ∧
    MulDivInstance.gradient ⟨i, o, 1 / 10⟩ ctx
      = .ok ⟨ctx.node i, ctx.gradOf i, ctx.gradOf o, 1 / 10⟩ :=
  ⟨rfl, rfl, by norm_num [MulDiv.new], rfl, rfl⟩

/-- A successful `merge_output_shape` of a fully known shape sets the node's
constraint to exactly that shape. -/
theorem mergeOutputShape_ok (ctx : ShapePropCtx) (nid : ℕ) (s : List ℕ) (ctx' : ShapePropCtx)
    (h : ctx.mergeOutputShape nid s = .ok ctx') :
    ctx'.constraint nid = some (s.map some) := by
  unfold ShapePropCtx.mergeOutputShape at h
  split at h
  · injection h with h
    subst h
    simp
  · split at h
    · injection h with h
      subst h
      simp
    · cases h

/-- The operation `merge_output_shape` fails exactly when the node carries a pre-existing
constraint incompatible with the proposed shape. -/
theorem mergeOutputShape_error_iff (ctx : ShapePropCtx) (nid : ℕ) (s : List ℕ) :
    (∃ e, ctx.mergeOutputShape nid s = .error e) ↔
      ∃ c, ctx.constraint nid = some c ∧ shapeCompat s c = false := by
  unfold ShapePropCtx.mergeOutputShape
  split
  · rename_i hc
    constructor
    · rintro ⟨e, he⟩
      exact absurd he (by simp)
    · rintro ⟨c, hcn, -⟩
      rw [hc] at hcn
      cases hcn
  · rename_i c hc
    split
    · rename_i hcompat
      constructor
      · rintro ⟨e, he⟩
        exact absurd he (by simp)
      · rintro ⟨c', hc', hfalse⟩
        rw [hc] at hc'
        injection hc' with hc'
        subst hc'
        rw [hcompat] at hfalse
        cases hfalse
    · rename_i hcompat
      exact ⟨fun _ => ⟨c, hc, by simpa using hcompat⟩, fun _ => ⟨.mergeIncompatible, rfl⟩⟩

/-- Counterexample to Claim C6 as stated: with the input and output-gradient
shapes both `[2]` but a pre-existing incompatible constraint `[3]` on the
input-gradient node, `MulDivBackInstance::propagate_shapes` returns an
error even though the output-gradient shape equals the input shape, so
"returns an error if and only if the output-gradient shape differs from
the input shape" fails in the only-if direction. -/
theorem muldivBack_propagate_error_despite_equal_shapes :
    shapePropCtxC6.inputShape 2 = shapePropCtxC6.inputShape 0 ∧
    MulDivBackInstance.propagateShapes ⟨0, 1, 2, 1 / 10⟩ shapePropCtxC6
      = .error .mergeIncompatible :=
  ⟨rfl, rfl⟩

/-- Claim C6 (amended): shape propagation for the shape-preserving operators
makes the output shape equal the input shape (`MulDivInstance` merges the
input's shape into the output, so on success the output's constraint is
exactly the input shape); `MulDivBackInstance.propagateShapes` returns the
shape error if the output-gradient shape differs from the input shape, and
otherwise merges the input shape into the input-gradient node — a merge
that itself fails precisely when that node's pre-existing constraint is
incompatible with the input shape. -/
theorem shape_propagation_identity (inst : MulDivInstance) (binst : MulDivBackInstance)
    (ctx ctx' bctx' : ShapePropCtx) :
    (inst.propagateShapes ctx = .ok ctx' →
      ctx'.constraint inst.output = some ((ctx.inputShape inst.input).map some)) ∧
    (ctx.inputShape binst.output_grad ≠ ctx.inputShape binst.input →
      binst.propagateShapes ctx = .error .outputGradShapeMismatch) ∧
    (ctx.inputShape binst.output_grad = ctx.inputShape binst.input →
      binst.propagateShapes ctx
        = ctx.mergeOutputShape binst.input_grad (ctx.inputShape binst.input)) ∧
    (binst.propagateShapes ctx = .ok bctx' →
      bctx'.constraint binst.input_grad = some ((ctx.inputShape binst.input).map some)) ∧
    ((∃ e, ctx.mergeOutputShape binst.input_grad (ctx.inputShape binst.input) = .error e) ↔
      ∃ c, ctx.constraint binst.input_grad = some c
        ∧ shapeCompat (ctx.inputShape binst.input) c = false) := by
  refine ⟨?_, ?_, ?_, ?_, mergeOutputShape_error_iff _ _ _⟩
  · intro h
    unfold MulDivInstance.propagateShapes at h
    exact mergeOutputShape_ok _ _ _ _ h
  · intro h
    simp only [MulDivBackInstance.propagateShapes]
    rw [if_pos h]
  · intro h
    simp only [MulDivBackInstance.propagateShapes]
    rw [if_neg (not_not_intro h)]
  · intro h
    simp only [MulDivBackInstance.propagateShapes] at h
    by_cases hsh : ctx.inputShape binst.output_grad = ctx.inputShape binst.input
    · rw [if_neg (not_not_intro hsh)] at h
      exact mergeOutputShape_ok _ _ _ _ h
    · rw [if_pos hsh] at h
      cases h

/-- Witness for Claim C6 (amended), at a concrete context in which the
output-gradient shape `[3]` differs from the input shape `[2]`: the
backward shape propagation reports the shape error. -/
theorem shape_propagation_identity_witness :
    (shapePropCtxW.inputShape 2 ≠ shapePropCtxW.inputShape 0) ∧
    MulDivBackInstance.propagateShapes ⟨0, 1, 2, 1 / 10⟩ shapePropCtxW
      = .error .outputGradShapeMismatch :=
  ⟨by decide,
    (shape_propagation_identity ⟨0, 1, 1 / 10⟩ ⟨0, 1, 2, 1 / 10⟩ shapePropCtxW
      shapePropCtxW shapePropCtxW).2.1 (by decide)⟩

/-- Claim C7: executing `MulDiv` with `epsilon = 0.1` on the row
`[0.2, 0.4, 0.6, 0.8, 2.2, 2.4, 2.6, 2.8, 4.7]` accumulated into an
all-zero output buffer produces, within `1e-5` relative tolerance,
`[-0.2, 0.4, 0.4356436, 0.0792079, -1.0, 12.4, 0.8514716, 0.005475702,
4.7]`, with the trailing ninth scalar passed through unchanged. -/
theorem muldiv_forward_literal :
    ∃ t : Tensor,
      MulDivInstance.execute ⟨0, 1, 1 / 10⟩ ⟨[9], muldivTestRow⟩ ⟨[9], List.replicate 9 0⟩
        = .ok t ∧
      relClose (1 / 100000) (t.data.getD 0 0) (-(2 / 10)) ∧
      relClose (1 / 100000) (t.data.getD 1 0) (4 / 10) ∧
      relClose (1 / 100000) (t.data.getD 2 0) (4356436 / 10000000) ∧
      relClose (1 / 100000) (t.data.getD 3 0) (792079 / 10000000) ∧
      relClose (1 / 100000) (t.data.getD 4 0) (-1) ∧
      relClose (1 / 100000) (t.data.getD 5 0) (124 / 10) ∧
      relClose (1 / 100000) (t.data.getD 6 0) (8514716 / 10000000) ∧
      relClose (1 / 100000) (t.data.getD 7 0) (5475702 / 1000000000) ∧
      t.data.getD 8 0 = muldivTestRow.getD 8 0 := by
  refine ⟨⟨[9], [-1/5, 2/5, 44/101, 8/101, -1, 62/5, 1244/1461, 8/1461, 47/10]⟩, ?_,
    ?_, ?_, ?_, ?_, ?_, ?_, ?_, ?_, ?_⟩
  · norm_num [MulDivInstance.execute, innerLen, chunks, chunksGo, muldivTestRow, muldivLane,
      muldivGroups, muldivLaneGroup, accumFrom, List.replicate]
  all_goals simp only [relClose, List.getD, muldivTestRow, abs, max_def]
  all_goals norm_num
